import Mathlib

/-!
Shallow embedding of the two Pyomo gallery notebooks
(`diet/DietProblem.ipynb` and the max-flow notebook) as a small
linear-programming data model, together with the spec's surrounding
machinery (data loader, instantiation checks, solver-adapter contract),
and proofs of the claims about them.

Numeric values are modelled as rationals (`ℚ`); the distinguished value
`float('inf')` used as the `Nmax` default is modelled by an explicit
`NumVal.inf` constructor.
-/

/-- A numeric value that is either a finite rational or positive infinity
(the notebooks use `infinity = float('inf')` as the `Nmax` default). -/
inductive NumVal where
  | fin (q : ℚ)
  | inf
deriving DecidableEq

/-- Objective sense (Pyomo `minimize` / `maximize`). -/
inductive Sense where
  | minimize
  | maximize
deriving DecidableEq

/-- Variable domain: `NonNegativeIntegers` (diet `model.x`) or
`NonNegativeReals` (max-flow `model.f`). -/
inductive VarDom where
  | nonNegInt
  | nonNegReal
deriving DecidableEq

/-- A linear expression over variable identifiers of type `ι`: a list of
(coefficient, variable) terms plus a constant.  The term list mirrors the
Python generator sums in the rule functions term by term. -/
structure LinExpr (ι : Type) where
  terms : List (ℚ × ι)
  const : ℚ
deriving DecidableEq

/-- Evaluate a linear expression at an assignment of values to variables. -/
def LinExpr.eval {ι : Type} (e : LinExpr ι) (x : ι → ℚ) : ℚ :=
  e.const + (e.terms.map (fun t => t.1 * x t.2)).sum

/-- The total coefficient a linear expression assigns to the variable `v`. -/
def LinExpr.coeff {ι : Type} [DecidableEq ι] (e : LinExpr ι) (v : ι) : ℚ :=
  ((e.terms.filter (fun t => t.2 = v)).map (fun t => t.1)).sum

/-- A constraint instance: a single upper bound (`expr <= ub`, as produced by
`volume_rule` and `limit_rule`), a double-sided bound
(`inequality(lb, expr, ub)`, as produced by `nutrient_rule`; the upper bound
may be infinite), or an equality (`inFlow == outFlow`, as produced by
`flow_rule`). -/
inductive LinCon (ι : Type) where
  | le (e : LinExpr ι) (ub : ℚ)
  | dble (lb : ℚ) (e : LinExpr ι) (ub : NumVal)
  | eq (l r : LinExpr ι)
deriving DecidableEq

/-- Result of a constraint rule at one index: a constraint, or the explicit
`Constraint.Skip` sentinel meaning no constraint is generated there. -/
inductive RuleResult (ι : Type) where
  | con (c : LinCon ι)
  | skip
deriving DecidableEq

/-- Satisfaction of an upper bound that may be infinite. -/
def NumVal.ubOK : NumVal → ℚ → Prop
  | .fin q, v => v ≤ q
  | .inf, _ => True

instance : (u : NumVal) → (v : ℚ) → Decidable (NumVal.ubOK u v)
  | .fin q, v => inferInstanceAs (Decidable (v ≤ q))
  | .inf, _ => inferInstanceAs (Decidable True)

/-- Exact satisfaction of a constraint instance at an assignment. -/
def LinCon.holds {ι : Type} (x : ι → ℚ) : LinCon ι → Prop
  | .le e ub => e.eval x ≤ ub
  | .dble lb e ub => lb ≤ e.eval x ∧ ub.ubOK (e.eval x)
  | .eq l r => l.eval x = r.eval x

instance {ι : Type} (x : ι → ℚ) : (c : LinCon ι) → Decidable (LinCon.holds x c)
  | .le e ub => inferInstanceAs (Decidable (e.eval x ≤ ub))
  | .dble _ _ _ => inferInstanceAs (Decidable (_ ∧ _))
  | .eq l r => inferInstanceAs (Decidable (l.eval x = r.eval x))

/-- The spec's feasibility tolerance: `1e-6` relative. -/
def tolerance : ℚ := 1 / 1000000

/-- A value `v` meets the lower bound `lb` within `1e-6` relative tolerance. -/
def withinLB (lb v : ℚ) : Prop := lb - tolerance * max 1 |lb| ≤ v

/-- A value `v` meets the (possibly infinite) upper bound within `1e-6`
relative tolerance. -/
def withinUB (v : ℚ) : NumVal → Prop
  | .fin b => v ≤ b + tolerance * max 1 |b|
  | .inf => True

/-- Satisfaction of a constraint instance within `1e-6` relative tolerance. -/
def LinCon.holdsTol {ι : Type} (x : ι → ℚ) : LinCon ι → Prop
  | .le e ub => withinUB (e.eval x) (.fin ub)
  | .dble lb e ub => withinLB lb (e.eval x) ∧ withinUB (e.eval x) ub
  | .eq l r => |l.eval x - r.eval x| ≤ tolerance * max 1 |r.eval x|

/-- Satisfaction of a variable domain: non-negativity, plus integrality
(denominator 1) for `NonNegativeIntegers`. -/
def VarDom.ok : VarDom → ℚ → Prop
  | .nonNegInt, v => 0 ≤ v ∧ v.den = 1
  | .nonNegReal, v => 0 ≤ v

instance : (d : VarDom) → (v : ℚ) → Decidable (VarDom.ok d v)
  | .nonNegInt, _ => inferInstanceAs (Decidable (_ ∧ _))
  | .nonNegReal, v => inferInstanceAs (Decidable (0 ≤ v))

/-- A materialized model: variable instances with their domains, the list of
generated (non-skipped) constraint instances, the objective expression and
its sense. -/
structure Model (ι : Type) where
  vars : List ι
  varDom : ι → VarDom
  cons : List (LinCon ι)
  obj : LinExpr ι
  sense : Sense

/-- An assignment is feasible for a model when every variable instance
satisfies its domain and every generated constraint instance holds. -/
def Model.Feasible {ι : Type} (m : Model ι) (x : ι → ℚ) : Prop :=
  (∀ v ∈ m.vars, (m.varDom v).ok (x v)) ∧ (∀ c ∈ m.cons, c.holds x)

instance {ι : Type} (m : Model ι) (x : ι → ℚ) : Decidable (m.Feasible x) :=
  inferInstanceAs (Decidable (_ ∧ _))

/-- Error taxonomy of the spec: missing-data, model-definition and
data-validation errors. -/
inductive ModelError where
  | missingData
  | modelDefinition
  | dataValidation
deriving DecidableEq

/-- Modelled from the spec: outcome of the external Solver Adapter.  An
assignment and objective value are carried only by the `optimal` and
`feasible` variants; `infeasible`, `unbounded` and `solverError` carry no
assignment. -/
inductive SolveOutcome (ι : Type) where
  | optimal (assign : ι → ℚ) (objVal : ℚ)
  | feasible (assign : ι → ℚ) (objVal : ℚ)
  | infeasible
  | unbounded
  | solverError

/-- The assignment carried by a solve outcome, when there is one. -/
def SolveOutcome.assignment {ι : Type} : SolveOutcome ι → Option (ι → ℚ)
  | .optimal x _ => some x
  | .feasible x _ => some x
  | _ => none

/-- Modelled from the spec: the external Solver Adapter (black box in the
repository; only its contract is specified).  It receives the model and an
internal candidate solution (with a flag telling whether the internal
algorithm proved optimality); it returns `optimal`/`feasible` only after
checking the candidate against every variable domain and every constraint
bound, and returns the `infeasible` result variant otherwise — solve
outcomes are returned values, never exceptions. -/
def solveAdapter {ι : Type} (m : Model ι) (cand : Option ((ι → ℚ) × Bool)) :
    SolveOutcome ι :=
  match cand with
  | some (x, provedOpt) =>
      if m.Feasible x then
        if provedOpt then .optimal x (m.obj.eval x) else .feasible x (m.obj.eval x)
      else .infeasible
  | none => .infeasible

/-- The adapter contract on one returned assignment: every variable instance
is non-negative, integral where the domain demands it, and every constraint
holds within the `1e-6` relative tolerance. -/
def assignOK {ι : Type} (m : Model ι) (x : ι → ℚ) : Prop :=
  (∀ v ∈ m.vars, 0 ≤ x v ∧ (m.varDom v = .nonNegInt → ∃ n : ℕ, x v = (n : ℚ)))
    ∧ (∀ c ∈ m.cons, c.holdsTol x)

/-- The adapter contract on a solve outcome: if it is `optimal` or
`feasible`, the carried assignment satisfies `assignOK`; the other variants
promise nothing. -/
def outcomeOK {ι : Type} (m : Model ι) : SolveOutcome ι → Prop
  | .optimal x _ => assignOK m x
  | .feasible x _ => assignOK m x
  | _ => True

/-- Pyomo's default objective sense when `Objective` is declared without a
`sense` argument.  Modelled from the spec and evidenced by the diet
notebook's `results.yml` (`Sense: minimize`). -/
def defaultSense : Sense := .minimize

/-- Resolve an optional declared sense to the effective one. -/
def resolveSense (o : Option Sense) : Sense := o.getD defaultSense

/-- The diet notebook's `Objective(rule=cost_rule)` declares no sense. -/
def dietSenseOpt : Option Sense := none

/-- The max-flow notebook's `Objective(rule=total_rule, sense=maximize)`. -/
def mfSenseOpt : Option Sense := some .maximize

/-- Concrete data of the diet model (`diet.py`): foods `F`, nutrients `N`,
cost `c`, nutrient amounts `a`, nutrient bounds `Nmin`/`Nmax` (the upper
bound may be infinite), serving volume `V` and volume cap `Vmax`. -/
structure DietData where
  F : List String
  N : List String
  c : String → ℚ
  a : String → String → ℚ
  Nmin : String → ℚ
  Nmax : String → NumVal
  V : String → ℚ
  Vmax : ℚ

/-- `cost_rule` of `diet.py`: `sum(model.c[i]*model.x[i] for i in model.F)`. -/
def cost_rule (d : DietData) : LinExpr String :=
  ⟨d.F.map (fun i => (d.c i, i)), 0⟩

/-- `nutrient_rule` of `diet.py`:
`inequality(model.Nmin[j], sum(model.a[i,j]*model.x[i] for i in model.F),
model.Nmax[j])`. -/
def nutrient_rule (d : DietData) (j : String) : LinCon String :=
  .dble (d.Nmin j) ⟨d.F.map (fun i => (d.a i j, i)), 0⟩ (d.Nmax j)

/-- `volume_rule` of `diet.py`:
`sum(model.V[i]*model.x[i] for i in model.F) <= model.Vmax`. -/
def volume_rule (d : DietData) : LinCon String :=
  .le ⟨d.F.map (fun i => (d.V i, i)), 0⟩ d.Vmax

/-- The materialized diet model: variables `x[i]` over `F` with domain
`NonNegativeIntegers`, one `nutrient_limit` constraint per nutrient plus the
scalar `volume` constraint, objective `cost_rule` with no declared sense. -/
def dietModel (d : DietData) : Model String :=
  { vars := d.F
    varDom := fun _ => .nonNegInt
    cons := d.N.map (nutrient_rule d) ++ [volume_rule d]
    obj := cost_rule d
    sense := resolveSense dietSenseOpt }

/-- Concrete data of the max-flow model (`maxflow.py`): nodes `N`, arcs `A`,
source `s`, sink `t`, arc capacities `c`. -/
structure MaxFlowData where
  N : List String
  A : List (String × String)
  s : String
  t : String
  c : String × String → ℚ

/-- `total_rule` of `maxflow.py`:
`sum(model.f[i,j] for (i, j) in model.A if j == value(model.t))` — each kept
arc contributes with coefficient `1`. -/
def total_rule (d : MaxFlowData) : LinExpr (String × String) :=
  ⟨(d.A.filter (fun p => p.2 = d.t)).map (fun p => ((1 : ℚ), p)), 0⟩

/-- Modelled from the spec (the notebook's markdown formulation, which is
NOT what `total_rule` builds): the capacity-weighted objective
`sum c_[i,t] * f_[i,t]` over arcs into the sink. -/
def total_formula_markdown (d : MaxFlowData) : LinExpr (String × String) :=
  ⟨(d.A.filter (fun p => p.2 = d.t)).map (fun p => (d.c p, p)), 0⟩

/-- `limit_rule` of `maxflow.py`: `model.f[i,j] <= model.c[i,j]`. -/
def limit_rule (d : MaxFlowData) (ij : String × String) :
    LinCon (String × String) :=
  .le ⟨[((1 : ℚ), ij)], 0⟩ (d.c ij)

/-- The `inFlow` sum of `flow_rule`:
`sum(model.f[i,j] for (i,j) in model.A if j == k)`. -/
def inFlowExpr (d : MaxFlowData) (k : String) : LinExpr (String × String) :=
  ⟨(d.A.filter (fun p => p.2 = k)).map (fun p => ((1 : ℚ), p)), 0⟩

/-- The `outFlow` sum of `flow_rule`:
`sum(model.f[i,j] for (i,j) in model.A if i == k)`. -/
def outFlowExpr (d : MaxFlowData) (k : String) : LinExpr (String × String) :=
  ⟨(d.A.filter (fun p => p.1 = k)).map (fun p => ((1 : ℚ), p)), 0⟩

/-- `flow_rule` of `maxflow.py`: returns `Constraint.Skip` when the node is
the source or the sink, and the equality `inFlow == outFlow` otherwise. -/
def flow_rule (d : MaxFlowData) (k : String) : RuleResult (String × String) :=
  if k = d.s ∨ k = d.t then .skip
  else .con (.eq (inFlowExpr d k) (outFlowExpr d k))

/-- The constraint instances generated by `model.flow = Constraint(model.N,
rule=flow_rule)`: one per node whose rule result is not `skip`. -/
def flowCons (d : MaxFlowData) : List (LinCon (String × String)) :=
  d.N.filterMap (fun k =>
    match flow_rule d k with
    | .con c => some c
    | .skip => none)

/-- The materialized max-flow model: variables `f[i,j]` over `A` with
domain `NonNegativeReals`, one `limit` constraint per arc plus the generated
`flow` constraints, objective `total_rule` with sense `maximize`. -/
def mfModel (d : MaxFlowData) : Model (String × String) :=
  { vars := d.A
    varDom := fun _ => .nonNegReal
    cons := d.A.map (limit_rule d) ++ flowCons d
    obj := total_rule d
    sense := resolveSense mfSenseOpt }

/-- Modelled from the spec: per-parameter resolution in the Data Loader
(absent from the repository, which delegates to Pyomo).  A provided value
wins; otherwise the declared default applies; with neither, loading raises
`MissingDataError`. -/
def loadParamValue (provided : Option NumVal) (dflt : Option NumVal) :
    Except ModelError NumVal :=
  match provided with
  | some v => .ok v
  | none =>
      match dflt with
      | some v => .ok v
      | none => .error .missingData

/-- Raw (pre-resolution) diet data, as read from a `diet.dat`-style file:
each parameter value is optionally provided per index. -/
structure DietRaw where
  F : List String
  N : List String
  c : String → Option ℚ
  a : String → String → Option ℚ
  Nmin : String → Option ℚ
  Nmax : String → Option NumVal
  V : String → Option ℚ
  Vmax : Option ℚ

/-- Modelled from the spec: the Data Loader for the diet model.  Parameters
`c`, `a`, `V` and `Vmax` declare no default, so a missing value is a
`MissingDataError`; `Nmin` defaults to `0.0` and `Nmax` to `infinity`, the
defaults declared in `diet.py`. -/
def loadDietData (r : DietRaw) : Except ModelError DietData :=
  if (r.F.all (fun i =>
        (r.c i).isSome && (r.V i).isSome && r.N.all (fun j => (r.a i j).isSome)))
      && r.Vmax.isSome then
    .ok { F := r.F
          N := r.N
          c := fun i => (r.c i).getD 0
          a := fun i j => (r.a i j).getD 0
          Nmin := fun j => (r.Nmin j).getD 0
          Nmax := fun j => (r.Nmax j).getD .inf
          V := fun i => (r.V i).getD 0
          Vmax := r.Vmax.getD 0 }
  else .error .missingData

/-- Raw (pre-resolution) max-flow data, as read from a `maxflow.dat`-style
file. -/
structure MFRaw where
  N : List String
  A : List (String × String)
  s : Option String
  t : Option String
  c : String × String → Option ℚ

/-- Modelled from the spec: the Data Loader for the max-flow model.  None of
`s`, `t`, `c` declares a default, so any missing value is a
`MissingDataError`. -/
def loadMFData (r : MFRaw) : Except ModelError MaxFlowData :=
  match r.s, r.t with
  | some sv, some tv =>
      if r.A.all (fun ij => (r.c ij).isSome) then
        .ok { N := r.N, A := r.A, s := sv, t := tv,
              c := fun ij => (r.c ij).getD 0 }
      else .error .missingData
  | _, _ => .error .missingData

/-- Well-formedness of one constraint instance: a double-bounded constraint
whose finite upper bound lies below its lower bound is malformed; every
other shape is well formed. -/
def LinCon.wellFormed {ι : Type} : LinCon ι → Prop
  | .dble lb _ (.fin u) => lb ≤ u
  | _ => True

instance {ι : Type} : (c : LinCon ι) → Decidable (LinCon.wellFormed c)
  | .dble lb _ (.fin u) => inferInstanceAs (Decidable (lb ≤ u))
  | .dble _ _ .inf => inferInstanceAs (Decidable True)
  | .le _ _ => inferInstanceAs (Decidable True)
  | .eq _ _ => inferInstanceAs (Decidable True)

/-- Modelled from the spec: the fail-fast instantiation step.  A malformed
constraint (lower bound above upper bound) raises `ModelDefinitionError`
and no model is produced; otherwise the materialized model is returned. -/
def instantiateChecked {ι : Type} (m : Model ι) : Except ModelError (Model ι) :=
  if ∀ c ∈ m.cons, c.wellFormed then .ok m else .error .modelDefinition

/-- Instantiation of the diet model from resolved data. -/
def dietInstantiate (d : DietData) : Except ModelError (Model String) :=
  instantiateChecked (dietModel d)

/-- Full diet pipeline: load raw data, then instantiate, exactly as the
spec's control flow prescribes. -/
def dietPipeline (r : DietRaw) : Except ModelError (Model String) :=
  (loadDietData r).bind dietInstantiate

/-- Full max-flow pipeline: load raw data, then instantiate. -/
def mfPipeline (r : MFRaw) : Except ModelError (Model (String × String)) :=
  (loadMFData r).bind (fun d => instantiateChecked (mfModel d))

/-- The diet-style scenario of the spec: foods `A`, `B`, one nutrient `Cal`,
costs `1.0` / `2.0`, both foods supplying `500` calories, `Nmin = 1000`,
`Nmax = infinity`.  (`V`/`Vmax` are not part of the scenario; the scenario
constrains only the nutrient limit and the variable domain.) -/
def dietScn : DietData :=
  { F := ["A", "B"]
    N := ["Cal"]
    c := fun i => if i = "A" then 1 else 2
    a := fun _ _ => 500
    Nmin := fun _ => 1000
    Nmax := fun _ => .inf
    V := fun _ => 1
    Vmax := 1000 }

/-- The scenario's claimed optimal assignment `x_A = 2`, `x_B = 0`. -/
def xScn : String → ℚ := fun i => if i = "A" then 2 else 0

/-- Feasibility for the diet-style scenario: every food's serving count
satisfies the declared `NonNegativeIntegers` domain and every nutrient's
`nutrient_rule` constraint holds. -/
def dietScnFeasible (x : String → ℚ) : Prop :=
  (∀ i ∈ dietScn.F, VarDom.ok .nonNegInt (x i))
    ∧ (∀ j ∈ dietScn.N, (nutrient_rule dietScn j).holds x)

/-- The infeasible diet-style scenario of the spec: `Nmin Cal = 1000` while
every food supplies zero calories. -/
def dietScnZero : DietData :=
  { F := ["A", "B"]
    N := ["Cal"]
    c := fun _ => 1
    a := fun _ _ => 0
    Nmin := fun _ => 1000
    Nmax := fun _ => .inf
    V := fun _ => 1
    Vmax := 1000 }

/-- Diet data with a malformed nutrient constraint (`Nmin Cal = 5` above
`Nmax Cal = 3`), for the fail-fast instantiation check. -/
def dietScnBad : DietData :=
  { F := ["A", "B"]
    N := ["Cal"]
    c := fun _ => 1
    a := fun _ _ => 500
    Nmin := fun _ => 5
    Nmax := fun _ => .fin 3
    V := fun _ => 1
    Vmax := 1000 }

/-- The max-flow-style scenario of the spec: nodes `s`, `a`, `t`, arcs
`(s,a)` with capacity `10` and `(a,t)` with capacity `4`. -/
def mfScn : MaxFlowData :=
  { N := ["s", "a", "t"]
    A := [("s", "a"), ("a", "t")]
    s := "s"
    t := "t"
    c := fun ij => if ij = ("s", "a") then 10 else 4 }

/-- The scenario's optimal flow: `4` on both arcs. -/
def fScn : String × String → ℚ := fun _ => 4

/-- The arc capacities of the notebook's `maxflow.dat`. -/
def mfExCap : String × String → ℚ := fun ij =>
  if ij = ("Zoo", "A") then 11
  else if ij = ("Zoo", "B") then 8
  else if ij = ("A", "C") then 5
  else if ij = ("A", "D") then 8
  else if ij = ("B", "A") then 4
  else if ij = ("B", "C") then 3
  else if ij = ("C", "D") then 2
  else if ij = ("C", "E") then 4
  else if ij = ("D", "E") then 5
  else if ij = ("D", "Home") then 8
  else if ij = ("E", "Home") then 6
  else 0

/-- The example data of the max-flow notebook (`maxflow.dat`). -/
def mfEx : MaxFlowData :=
  { N := ["Zoo", "A", "B", "C", "D", "E", "Home"]
    A := [("Zoo", "A"), ("Zoo", "B"), ("A", "C"), ("A", "D"), ("B", "A"),
          ("B", "C"), ("C", "D"), ("C", "E"), ("D", "E"), ("D", "Home"),
          ("E", "Home")]
    s := "Zoo"
    t := "Home"
    c := mfExCap }

/-- The flow reported in the max-flow notebook's `results.yml`, as an
assignment. -/
def fEx : String × String → ℚ := fun ij =>
  if ij = ("Zoo", "A") then 7
  else if ij = ("Zoo", "B") then 7
  else if ij = ("A", "C") then 3
  else if ij = ("A", "D") then 8
  else if ij = ("B", "A") then 4
  else if ij = ("B", "C") then 3
  else if ij = ("C", "D") then 2
  else if ij = ("C", "E") then 4
  else if ij = ("D", "E") then 2
  else if ij = ("D", "Home") then 8
  else if ij = ("E", "Home") then 6
  else 0

/-- A non-negative rational with denominator 1 is a natural number. -/
lemma rat_nat_of_den_one {q : ℚ} (h0 : 0 ≤ q) (hd : q.den = 1) :
    ∃ n : ℕ, q = (n : ℚ) := by
  refine ⟨q.num.toNat, ?_⟩
  have hnum : (q.num : ℚ) = q := (Rat.den_eq_one_iff q).mp hd
  have hn : 0 ≤ q.num := Rat.num_nonneg.mpr h0
  rw [← hnum]
  exact_mod_cast congrArg (fun z : ℤ => (z : ℚ)) (Int.toNat_of_nonneg hn).symm

/-- The tolerance allowance is non-negative. -/
lemma tol_allowance_nonneg (b : ℚ) : 0 ≤ tolerance * max 1 |b| := by
  have h1 : (0 : ℚ) ≤ tolerance := by norm_num [tolerance]
  have h2 : (0 : ℚ) ≤ max 1 |b| := le_trans zero_le_one (le_max_left _ _)
  exact mul_nonneg h1 h2

/-- Exact constraint satisfaction implies satisfaction within the `1e-6`
relative tolerance. -/
lemma LinCon.holds_imp_holdsTol {ι : Type} (x : ι → ℚ) (c : LinCon ι)
    (h : c.holds x) : c.holdsTol x := by
  cases c with
  | le e ub =>
      simp only [LinCon.holds] at h
      simp only [LinCon.holdsTol, withinUB]
      have := tol_allowance_nonneg ub
      linarith
  | dble lb e ub =>
      obtain ⟨hl, hu⟩ := h
      refine ⟨?_, ?_⟩
      · simp only [withinLB]
        have := tol_allowance_nonneg lb
        linarith
      · cases ub with
        | fin b =>
            simp only [NumVal.ubOK] at hu
            simp only [withinUB]
            have := tol_allowance_nonneg b
            linarith
        | inf => trivial
  | eq l r =>
      simp only [LinCon.holds] at h
      simp only [LinCon.holdsTol, h, sub_self, abs_zero]
      exact tol_allowance_nonneg _

/-- C1: whenever the Solver Adapter returns an `optimal` or `feasible`
outcome, every variable of the returned assignment satisfies its declared
domain (non-negative, and integral where the domain is
`NonNegativeIntegers`) and every constraint holds within the `1e-6`
relative tolerance; the diet model declares every `x` variable over
`NonNegativeIntegers` and the max-flow model declares every `f` variable
over `NonNegativeReals`. -/
theorem C1_adapter_assignment_contract :
    (∀ (ι : Type) (m : Model ι) (cand : Option ((ι → ℚ) × Bool)),
        outcomeOK m (solveAdapter m cand))
    ∧ (∀ (d : DietData) (i : String), (dietModel d).varDom i = .nonNegInt)
    ∧ (∀ (d : MaxFlowData) (ij : String × String),
        (mfModel d).varDom ij = .nonNegReal) := by
  refine ⟨?_, fun d i => rfl, fun d ij => rfl⟩
  intro ι m cand
  have key : ∀ x : ι → ℚ, m.Feasible x → assignOK m x := by
    intro x hx
    obtain ⟨hdom, hcon⟩ := hx
    refine ⟨?_, fun c hc => LinCon.holds_imp_holdsTol x c (hcon c hc)⟩
    intro v hv
    have h := hdom v hv
    cases hvd : m.varDom v with
    | nonNegInt =>
        rw [hvd] at h
        obtain ⟨h0, hden⟩ := h
        exact ⟨h0, fun _ => rat_nat_of_den_one h0 hden⟩
    | nonNegReal =>
        rw [hvd] at h
        exact ⟨h, fun hne => VarDom.noConfusion hne⟩
  cases cand with
  | none => trivial
  | some xb =>
      obtain ⟨x, provedOpt⟩ := xb
      simp only [solveAdapter]
      by_cases hf : m.Feasible x
      · rw [if_pos hf]
        cases provedOpt with
        | true => exact key x hf
        | false => exact key x hf
      · rw [if_neg hf]
        trivial

/-- C1 witness: the contract instantiated at the diet scenario model with
the candidate `x_A = 2, x_B = 0`. -/
theorem C1_adapter_assignment_contract_witness :
    outcomeOK (dietModel dietScn) (solveAdapter (dietModel dietScn)
      (some (xScn, true))) :=
  C1_adapter_assignment_contract.1 String (dietModel dietScn) (some (xScn, true))

/-- C4: `flow_rule` returns the explicit skip sentinel exactly at the source
and sink nodes; at every other node it returns the equality constraint
`inFlow == outFlow`; and the skip sentinel is a distinct outcome from every
generated constraint. -/
theorem C4_flow_rule_skip_iff :
    ∀ (d : MaxFlowData) (k : String),
      (flow_rule d k = .skip ↔ (k = d.s ∨ k = d.t))
      ∧ (¬(k = d.s ∨ k = d.t) →
          flow_rule d k = .con (.eq (inFlowExpr d k) (outFlowExpr d k)))
      ∧ (∀ c : LinCon (String × String),
          (RuleResult.skip : RuleResult (String × String)) ≠ .con c) := by
  intro d k
  refine ⟨?_, ?_, fun c h => RuleResult.noConfusion h⟩
  · constructor
    · intro h
      by_contra hst
      simp only [flow_rule, if_neg hst] at h
      exact RuleResult.noConfusion h
    · intro h
      simp only [flow_rule, if_pos h]
  · intro h
    simp only [flow_rule, if_neg h]

/-- C4 witness: at the scenario data, node `s` is skipped and node `a`
yields the flow-balance equality. -/
theorem C4_flow_rule_skip_iff_witness :
    flow_rule mfScn "a" =
      .con (.eq (inFlowExpr mfScn "a") (outFlowExpr mfScn "a")) :=
  (C4_flow_rule_skip_iff mfScn "a").2.1 (by decide)

/-- C5: a parameter with no provided value and no declared default raises
`MissingDataError`; one with a declared default and no provided value
yields exactly that default; an unspecified `Nmin` resolves to `0.0` and an
unspecified `Nmax` to positive infinity; a missing no-default parameter
(`Vmax`) makes the diet load fail with `MissingDataError`. -/
theorem C5_param_default_resolution :
    loadParamValue none none = .error .missingData
    ∧ (∀ v : NumVal, loadParamValue none (some v) = .ok v)
    ∧ (∀ (r : DietRaw) (d : DietData), loadDietData r = .ok d →
        ∀ j : String,
          (r.Nmin j = none → d.Nmin j = 0)
          ∧ (r.Nmax j = none → d.Nmax j = .inf))
    ∧ (∀ r : DietRaw, r.Vmax = none →
        loadDietData r = .error .missingData) := by
  refine ⟨rfl, fun v => rfl, ?_, ?_⟩
  · intro r d h j
    unfold loadDietData at h
    split at h
    · rw [Except.ok.injEq] at h
      subst h
      exact ⟨fun hn => by simp [hn], fun hn => by simp [hn]⟩
    · exact Except.noConfusion h
  · intro r hv
    unfold loadDietData
    rw [if_neg]
    simp [hv]

/-- C5 witness: resolution at the diet model's declared defaults
(`Nmin` default `0.0`, `Nmax` default `infinity`) and at a parameter with
neither value nor default. -/
theorem C5_param_default_resolution_witness :
    loadParamValue none (some (.fin 0)) = .ok (.fin 0)
    ∧ loadParamValue none (some .inf) = .ok .inf :=
  ⟨C5_param_default_resolution.2.1 (.fin 0),
   C5_param_default_resolution.2.1 .inf⟩

/-- C7: a double-bounded constraint whose resolved lower bound strictly
exceeds its finite resolved upper bound makes diet-model instantiation
fail fast with `ModelDefinitionError`; no model is produced. -/
theorem C7_bad_bounds_fail_fast :
    ∀ (d : DietData) (j : String) (u : ℚ),
      j ∈ d.N → d.Nmax j = .fin u → u < d.Nmin j →
      dietInstantiate d = .error .modelDefinition
        ∧ ∀ m : Model String, dietInstantiate d ≠ .ok m := by
  intro d j u hj hmax hlt
  have hmem : nutrient_rule d j ∈ (dietModel d).cons :=
    List.mem_append_left _ (List.mem_map_of_mem _ hj)
  have hbad : ¬ (nutrient_rule d j).wellFormed := by
    simp only [nutrient_rule, hmax, LinCon.wellFormed]
    exact not_le.mpr hlt
  have hfail : ¬ ∀ c ∈ (dietModel d).cons, c.wellFormed :=
    fun hall => hbad (hall _ hmem)
  have herr : dietInstantiate d = .error .modelDefinition := by
    unfold dietInstantiate instantiateChecked
    exact if_neg hfail
  exact ⟨herr, fun m hok => Except.noConfusion (herr ▸ hok)⟩

/-- C7 witness: at concrete data with `Nmin Cal = 5 > 3 = Nmax Cal`,
instantiation returns `ModelDefinitionError`. -/
theorem C7_bad_bounds_fail_fast_witness :
    dietInstantiate dietScnBad = .error .modelDefinition :=
  (C7_bad_bounds_fail_fast dietScnBad "Cal" 3 (by decide) rfl (by decide)).1

/-- C8: loading equal raw data twice and re-instantiating produces
identical resolved data and identical materialized models, for both the
diet and the max-flow pipelines (instantiation is deterministic). -/
theorem C8_instantiation_deterministic :
    ∀ (r₁ r₂ : DietRaw) (q₁ q₂ : MFRaw), r₁ = r₂ → q₁ = q₂ →
      loadDietData r₁ = loadDietData r₂
      ∧ dietPipeline r₁ = dietPipeline r₂
      ∧ loadMFData q₁ = loadMFData q₂
      ∧ mfPipeline q₁ = mfPipeline q₂ := by
  intro r₁ r₂ q₁ q₂ hr hq
  subst hr
  subst hq
  exact ⟨rfl, rfl, rfl, rfl⟩

/-- A small concrete raw diet data file. -/
def dietRawEx : DietRaw :=
  { F := ["A"]
    N := ["Cal"]
    c := fun _ => some 1
    a := fun _ _ => some 500
    Nmin := fun _ => some 1000
    Nmax := fun _ => none
    V := fun _ => some 1
    Vmax := some 10 }

/-- A small concrete raw max-flow data file. -/
def mfRawEx : MFRaw :=
  { N := ["s", "t"]
    A := [("s", "t")]
    s := some "s"
    t := some "t"
    c := fun _ => some 5 }

/-- C8 witness: the determinism statement applied to two loads of the same
concrete raw files. -/
theorem C8_instantiation_deterministic_witness :
    dietPipeline dietRawEx = dietPipeline dietRawEx
    ∧ mfPipeline mfRawEx = mfPipeline mfRawEx :=
  ⟨(C8_instantiation_deterministic dietRawEx dietRawEx mfRawEx mfRawEx
      rfl rfl).2.1,
   (C8_instantiation_deterministic dietRawEx dietRawEx mfRawEx mfRawEx
      rfl rfl).2.2.2⟩

/-- C9: the diet objective is declared with no explicit sense, the default
sense is `minimize`, so every instantiated diet model minimizes, and its
objective expression is exactly the `cost_rule` sum. -/
theorem C9_default_sense_minimize :
    defaultSense = .minimize
    ∧ dietSenseOpt = none
    ∧ resolveSense dietSenseOpt = .minimize
    ∧ (∀ d : DietData,
        (dietModel d).sense = .minimize ∧ (dietModel d).obj = cost_rule d) :=
  ⟨rfl, rfl, rfl, fun _ => ⟨rfl, rfl⟩⟩

/-- C9 witness: the diet scenario model's sense is `minimize`. -/
theorem C9_default_sense_minimize_witness :
    (dietModel dietScn).sense = .minimize :=
  (C9_default_sense_minimize.2.2.2 dietScn).1

/-- C6: when some nutrient has a strictly positive minimum requirement but
every food supplies zero of it, no assignment is feasible for the diet
model; the solve step returns the `infeasible` result variant (a value, not
an exception) and that outcome carries no variable assignment. -/
theorem C6_zero_supply_infeasible :
    ∀ (d : DietData) (j : String),
      j ∈ d.N → 0 < d.Nmin j → (∀ i ∈ d.F, d.a i j = 0) →
      (∀ x : String → ℚ, ¬ (dietModel d).Feasible x)
      ∧ (∀ cand, solveAdapter (dietModel d) cand = .infeasible
          ∧ (solveAdapter (dietModel d) cand).assignment = none) := by
  intro d j hj hpos hzero
  have hinfeas : ∀ x : String → ℚ, ¬ (dietModel d).Feasible x := by
    intro x hx
    obtain ⟨-, hcon⟩ := hx
    have hmem : nutrient_rule d j ∈ (dietModel d).cons :=
      List.mem_append_left _ (List.mem_map_of_mem _ hj)
    have h1 := hcon _ hmem
    simp only [nutrient_rule, LinCon.holds] at h1
    obtain ⟨hlb, -⟩ := h1
    have hz :
        LinExpr.eval ⟨d.F.map (fun i => (d.a i j, i)), 0⟩ x = 0 := by
      simp only [LinExpr.eval, List.map_map, zero_add]
      refine List.sum_eq_zero ?_
      intro y hy
      obtain ⟨i, hi, hiy⟩ := List.mem_map.mp hy
      simp only [Function.comp] at hiy
      rw [← hiy, hzero i hi, zero_mul]
    rw [hz] at hlb
    exact absurd hlb (not_le.mpr hpos)
  refine ⟨hinfeas, ?_⟩
  intro cand
  have hout : solveAdapter (dietModel d) cand = .infeasible := by
    cases cand with
    | none => rfl
    | some xb =>
        obtain ⟨x, b⟩ := xb
        simp only [solveAdapter]
        rw [if_neg (hinfeas x)]
  exact ⟨hout, by rw [hout]; rfl⟩

/-- C6 witness: the all-zero-calories scenario with `Nmin Cal = 1000`,
queried with an empty candidate, yields the `infeasible` outcome. -/
theorem C6_zero_supply_infeasible_witness :
    solveAdapter (dietModel dietScnZero) none = .infeasible
    ∧ (solveAdapter (dietModel dietScnZero) none).assignment = none :=
  (C6_zero_supply_infeasible dietScnZero "Cal" (by decide) (by decide)
    (fun i _ => rfl)).2 none

/-- C2: in the diet-style scenario (`F = {A,B}`, `N = {Cal}`, costs `1`/`2`,
both foods supplying `500` calories, `Nmin = 1000`, `Nmax = ∞`), the
assignment `x_A = 2, x_B = 0` is feasible with cost `2`, every feasible
assignment costs at least `2`, and cost `2` forces `x_A = 2, x_B = 0` — the
unique optimum. -/
theorem C2_diet_scenario_unique_optimum :
    dietScnFeasible xScn
    ∧ (cost_rule dietScn).eval xScn = 2
    ∧ (∀ x : String → ℚ, dietScnFeasible x →
        2 ≤ (cost_rule dietScn).eval x
        ∧ ((cost_rule dietScn).eval x = 2 → x "A" = 2 ∧ x "B" = 0)) := by
  refine ⟨?_, ?_, ?_⟩
  · constructor
    · intro i hi
      fin_cases hi
      · exact ⟨by norm_num [xScn], rfl⟩
      · exact ⟨by norm_num +decide [xScn], rfl⟩
    · intro j hj
      fin_cases hj
      refine ⟨?_, trivial⟩
      norm_num +decide [dietScn, LinExpr.eval, xScn]
  · norm_num +decide [cost_rule, LinExpr.eval, dietScn, xScn]
  · intro x hx
    obtain ⟨hdom, hcon⟩ := hx
    have hA : 0 ≤ x "A" ∧ (x "A").den = 1 := hdom "A" (by decide)
    have hB : 0 ≤ x "B" ∧ (x "B").den = 1 := hdom "B" (by decide)
    have hc : (1000 : ℚ) ≤ 500 * x "A" + 500 * x "B" := by
      have h := hcon "Cal" (by decide)
      simp only [nutrient_rule, LinCon.holds, LinExpr.eval, dietScn,
        List.map_cons, List.map_nil, List.sum_cons, List.sum_nil,
        zero_add, add_zero] at h
      linarith [h.1]
    have hcost : (cost_rule dietScn).eval x = x "A" + 2 * x "B" := by
      simp +decide [cost_rule, LinExpr.eval, dietScn]
    rw [hcost]
    constructor
    · linarith [hA.1, hB.1]
    · intro he
      constructor
      · linarith [hB.1]
      · linarith [hB.1]

/-- C2 witness: the lower bound and the uniqueness conclusion evaluated at
the optimal assignment itself. -/
theorem C2_diet_scenario_unique_optimum_witness :
    2 ≤ (cost_rule dietScn).eval xScn :=
  (C2_diet_scenario_unique_optimum.2.2 xScn
    C2_diet_scenario_unique_optimum.1).1

/-- C3: in the max-flow-style scenario (`N = {s,a,t}`, arcs `(s,a)` with
capacity `10` and `(a,t)` with capacity `4`), the flow sending `4` on both
arcs is feasible with objective value `4`, every feasible flow has
objective value at most `4` (the bottleneck arc), and the flow-balance rule
skips the source and sink nodes. -/
theorem C3_maxflow_scenario_optimum :
    (mfModel mfScn).Feasible fScn
    ∧ (mfModel mfScn).obj.eval fScn = 4
    ∧ (∀ x : String × String → ℚ,
        (mfModel mfScn).Feasible x → (mfModel mfScn).obj.eval x ≤ 4)
    ∧ flow_rule mfScn "s" = .skip
    ∧ flow_rule mfScn "t" = .skip := by
  have hcons : (mfModel mfScn).cons =
      [.le ⟨[((1 : ℚ), ("s", "a"))], 0⟩ 10,
       .le ⟨[((1 : ℚ), ("a", "t"))], 0⟩ 4,
       .eq ⟨[((1 : ℚ), ("s", "a"))], 0⟩ ⟨[((1 : ℚ), ("a", "t"))], 0⟩] := rfl
  refine ⟨⟨?_, ?_⟩, ?_, ?_, rfl, rfl⟩
  · intro v hv
    have hv' : v ∈ [("s", "a"), ("a", "t")] := hv
    fin_cases hv' <;> exact (by norm_num [fScn] : (0 : ℚ) ≤ 4)
  · intro c hc
    rw [hcons] at hc
    fin_cases hc
    · show LinExpr.eval _ fScn ≤ 10
      have h : LinExpr.eval ⟨[((1 : ℚ), ("s", "a"))], 0⟩ fScn
          = 0 + (1 * 4 + 0) := rfl
      rw [h]
      norm_num
    · show LinExpr.eval _ fScn ≤ 4
      have h : LinExpr.eval ⟨[((1 : ℚ), ("a", "t"))], 0⟩ fScn
          = 0 + (1 * 4 + 0) := rfl
      rw [h]
      norm_num
    · show LinExpr.eval _ fScn = LinExpr.eval _ fScn
      rfl
  · have h : (mfModel mfScn).obj.eval fScn = 0 + (1 * 4 + 0) := rfl
    rw [h]
    norm_num
  · intro x hx
    obtain ⟨-, hcon⟩ := hx
    have h := hcon _ (hcons ▸ List.mem_cons_of_mem _ (List.mem_cons_self _ _))
    have h' : 0 + (1 * x ("a", "t") + 0) ≤ 4 := h
    have hobj : (mfModel mfScn).obj.eval x = 0 + (1 * x ("a", "t") + 0) := rfl
    rw [hobj]
    linarith

/-- C3 witness: the upper bound applied at the optimal flow itself. -/
theorem C3_maxflow_scenario_optimum_witness :
    (mfModel mfScn).obj.eval fScn ≤ 4 :=
  C3_maxflow_scenario_optimum.2.2.1 fScn C3_maxflow_scenario_optimum.1

/-- Coefficient extraction for an all-ones term list: the coefficient of
`p` counts the occurrences of `p`. -/
lemma coeff_unit_list {ι : Type} [DecidableEq ι] (m : List ι) (p : ι) :
    (LinExpr.mk (m.map (fun q => ((1 : ℚ), q))) 0).coeff p = (m.count p : ℚ) := by
  induction m with
  | nil => simp [LinExpr.coeff]
  | cons b m ih =>
      by_cases hb : b = p
      · subst hb
        simp only [LinExpr.coeff, List.map_cons, List.filter_cons] at ih ⊢
        simp [List.count_cons, ih]
        ring
      · simp only [LinExpr.coeff, List.map_cons, List.filter_cons] at ih ⊢
        simp [List.count_cons, hb, ih]

/-- Occurrence count in a filtered duplicate-free list: one when the element
is present and kept, zero otherwise. -/
lemma count_filter_nodup {ι : Type} [DecidableEq ι] (l : List ι) (hl : l.Nodup)
    (f : ι → Bool) (p : ι) :
    ((l.filter f).count p : ℚ) = if p ∈ l ∧ f p = true then 1 else 0 := by
  by_cases h : p ∈ l ∧ f p = true
  · rw [if_pos h]
    have hmem : p ∈ l.filter f := List.mem_filter.mpr h
    exact_mod_cast List.count_eq_one_of_mem (List.Nodup.filter f hl) hmem
  · rw [if_neg h]
    have hnm : p ∉ l.filter f := fun hc => h (List.mem_filter.mp hc)
    exact_mod_cast List.count_eq_zero.mpr hnm

/-- On a duplicate-free arc set, `total_rule` gives coefficient one to every
arc into the sink and zero to every other arc. -/
lemma total_rule_coeff (d : MaxFlowData) (hd : d.A.Nodup)
    (p : String × String) :
    (total_rule d).coeff p = if p ∈ d.A ∧ p.2 = d.t then 1 else 0 := by
  rw [total_rule, coeff_unit_list, count_filter_nodup _ hd]
  simp

/-- C10: on every max-flow model with duplicate-free arcs, the objective
built by `total_rule` assigns coefficient exactly `1` to each arc into the
sink and `0` to every other arc — unlike the notebook markdown's
capacity-weighted formula, which on the example data gives `f[D,Home]`
coefficient `8` where the code gives `1`; on the example data the code
objective of the reported flow is `14 = 8 + 6` and no feasible flow does
better. -/
theorem C10_total_rule_unit_coefficients :
    ∀ d : MaxFlowData, d.A.Nodup →
      (∀ p : String × String,
        (total_rule d).coeff p = if p ∈ d.A ∧ p.2 = d.t then 1 else 0)
      ∧ (total_rule mfEx).coeff ("D", "Home") = 1
      ∧ (total_formula_markdown mfEx).coeff ("D", "Home") = 8
      ∧ (mfModel mfEx).Feasible fEx
      ∧ (mfModel mfEx).obj.eval fEx = 14
      ∧ (∀ x : String × String → ℚ,
          (mfModel mfEx).Feasible x → (mfModel mfEx).obj.eval x ≤ 14) := by
  intro d hd
  refine ⟨total_rule_coeff d hd, ?_, ?_, ⟨?_, ?_⟩, ?_, ?_⟩
  · rw [total_rule_coeff mfEx (by decide)]
    simp +decide
  · norm_num +decide [total_formula_markdown, LinExpr.coeff, mfEx, mfExCap,
      List.filter_cons]
  · intro v hv
    have hv' : v ∈ [("Zoo", "A"), ("Zoo", "B"), ("A", "C"), ("A", "D"),
        ("B", "A"), ("B", "C"), ("C", "D"), ("C", "E"), ("D", "E"),
        ("D", "Home"), ("E", "Home")] := hv
    fin_cases hv' <;> norm_num +decide [VarDom.ok, fEx]
  · intro c hc
    rcases List.mem_append.mp hc with hL | hF
    · obtain ⟨ij, hij, rfl⟩ := List.mem_map.mp hL
      have hij' : ij ∈ [("Zoo", "A"), ("Zoo", "B"), ("A", "C"), ("A", "D"),
          ("B", "A"), ("B", "C"), ("C", "D"), ("C", "E"), ("D", "E"),
          ("D", "Home"), ("E", "Home")] := hij
      fin_cases hij' <;>
        norm_num +decide [limit_rule, LinCon.holds, LinExpr.eval, mfEx,
          mfExCap, fEx]
    · have hf : flowCons mfEx =
          [.eq (inFlowExpr mfEx "A") (outFlowExpr mfEx "A"),
           .eq (inFlowExpr mfEx "B") (outFlowExpr mfEx "B"),
           .eq (inFlowExpr mfEx "C") (outFlowExpr mfEx "C"),
           .eq (inFlowExpr mfEx "D") (outFlowExpr mfEx "D"),
           .eq (inFlowExpr mfEx "E") (outFlowExpr mfEx "E")] := rfl
      rw [hf] at hF
      fin_cases hF <;>
        norm_num +decide [LinCon.holds, LinExpr.eval, inFlowExpr,
          outFlowExpr, mfEx, fEx, List.filter_cons]
  · norm_num +decide [mfModel, total_rule, LinExpr.eval, mfEx, fEx,
      List.filter_cons]
  · intro x hx
    obtain ⟨-, hcon⟩ := hx
    have hD : 0 + (1 * x ("D", "Home") + 0) ≤ 8 :=
      hcon (limit_rule mfEx ("D", "Home"))
        (List.mem_append_left _ (List.mem_map_of_mem _ (by decide)))
    have hE : 0 + (1 * x ("E", "Home") + 0) ≤ 6 :=
      hcon (limit_rule mfEx ("E", "Home"))
        (List.mem_append_left _ (List.mem_map_of_mem _ (by decide)))
    have hobj : (mfModel mfEx).obj.eval x =
        0 + (1 * x ("D", "Home") + (1 * x ("E", "Home") + 0)) := rfl
    rw [hobj]
    linarith

/-- C10 witness: the coefficient conclusions at the example data. -/
theorem C10_total_rule_unit_coefficients_witness :
    (total_rule mfEx).coeff ("D", "Home") = 1
    ∧ (total_formula_markdown mfEx).coeff ("D", "Home") = 8 :=
  ⟨(C10_total_rule_unit_coefficients mfEx (by decide)).2.1,
   (C10_total_rule_unit_coefficients mfEx (by decide)).2.2.1⟩
